import Mathlib

/-!
Verification development for the webrtc-fighter repository: a shallow
embedding of the deterministic fixed-point simulation, the rollback engine
(src/rollback.ts, current revision with collision fields), the binary wire
codecs (src/protocol.ts) and the orchestrator gating logic (src/main.ts),
together with theorems settling the specification claims.

Modelling conventions:
* JavaScript 32-bit integer coercions (`| 0`, `>>> 0`, `Math.imul`) are made
  explicit with `toInt32` / `toUint32`.
* `Uint16Array` input rings become total functions `Fin 65536 → Nat` whose
  unwritten slots read 0, exactly as in JS; writes truncate modulo 2^16.
* The sparse 64-slot history array becomes `Fin 64 → Option State`; reading
  an unwritten slot and then dereferencing `.frame` throws in JS, which the
  embedding renders as `Option.none` results.
* The script VM (a wrapper over a WASM Rhai interpreter with persistent
  scope) is abstracted to a state type `V` and a transition
  `tick : V → Nat → Nat → List Cmd × V`; the engine threads the two VM
  states exactly where the source calls `vm.tick`.
* The dyadic pixel arithmetic of the collision/pushback arms (IEEE doubles
  on dyadic rationals, exact at these magnitudes) is modelled in `ℚ`.
* `structuredClone` is value copying, hence the identity in a pure model.
* JS `while` loops whose variant is the frame distance are given explicit
  fuel; the fuel chosen is sufficient exactly for the terminating runs, and
  exhaustion (`none`) models the diverging ones.
-/

namespace WebrtcFighter

/-- JS `| 0` (ToInt32): wrap an integer into the range `[-2^31, 2^31)`. -/
def toInt32 (n : Int) : Int := (n + 2147483648).emod 4294967296 - 2147483648

/-- JS `>>> 0` (ToUint32): the low 32 bits of an integer, as a natural number. -/
def toUint32 (n : Int) : Nat := (n.emod 4294967296).toNat

/-- The commands a player VM may emit, from the `Cmd` union of vm_rhai.ts plus
the `hitbox`/`hurtbox` kinds interpreted by `step` in rollback.ts.  Animation
names are UTF-16 code-unit sequences. -/
inductive Cmd where
  | move (dx : Int)
  | anim (name : List Nat)
  | hitbox (active : Bool)
  | hurtbox (active : Bool)
deriving DecidableEq

/-- Per-player simulation record (interface Fighter in rollback.ts). -/
structure Fighter where
  x : Int
  vx : Int
  hp : Int
  anim : Int
  hitboxActive : Bool
  hurtboxActive : Bool
deriving DecidableEq

/-- Committed game state (interface State in rollback.ts). -/
structure State where
  frame : Nat
  p1 : Fighter
  p2 : Fighter
deriving DecidableEq

/-- String hash of rollback.ts (`hashStr`): `h = ((h << 5) - h + c) | 0` over
the code units, starting from 0.  The inner `toInt32` is the 32-bit wrap JS
applies to the `<< 5` shift before the subtraction. -/
def hashStr (s : List Nat) : Int :=
  s.foldl (fun h c => toInt32 (toInt32 (h * 32) - h + (c : Int))) 0

/-- One FNV-style mixing step of rollback.ts (`hash32`):
`h ^= v >>> 0; h = Math.imul(h, 16777619) >>> 0`. -/
def hash32 (h : Nat) (v : Int) : Nat :=
  (Nat.xor h (toUint32 v) * 16777619) % 4294967296

/-- Words hashed for one fighter, in the order of the `for (const f of ...)`
loop body of `hashState` in rollback.ts. -/
def hashFighter (h : Nat) (f : Fighter) : Nat :=
  hash32 (hash32 (hash32 (hash32 (hash32 (hash32 h f.x) f.vx)
    (toInt32 f.hp)) (toInt32 f.anim))
    (if f.hitboxActive then 1 else 0)) (if f.hurtboxActive then 1 else 0)

/-- State fingerprint of rollback.ts (`hashState`): seed 2166136261, then the
frame word followed by the two fighters' words. -/
def hashState (s : State) : Nat :=
  [s.p1, s.p2].foldl hashFighter (hash32 2166136261 (s.frame : Int))

/-- Conversion `FP.from` of rollback.ts: `(n * (1 << 16)) | 0`, i.e. the
32-bit wrap of trunc(q·65536).  For q = num/den in lowest terms,
trunc(q·65536) = (num·65536) T-divided by den; this num/den form is used
because it reduces definitionally, unlike `ℚ` multiplication. -/
def fpFrom (q : ℚ) : Int := toInt32 ((q.num * 65536).tdiv (q.den : Int))

/-- Collision box (interface CollisionBox of rollback.ts), in pixel space. -/
structure CollisionBox where
  x : ℚ
  y : ℚ
  width : ℚ
  height : ℚ
deriving DecidableEq

/-- Value stored in the engine's `collisionData` map for one animation hash. -/
structure CollEntry where
  hitboxes : List CollisionBox
  hurtboxes : List CollisionBox
deriving DecidableEq

/-- AABB overlap test (`checkCollision` of rollback.ts). -/
def checkCollision (box1 box2 : CollisionBox) : Bool :=
  let left1 := box1.x - box1.width / 2
  let right1 := box1.x + box1.width / 2
  let top1 := box1.y - box1.height / 2
  let bottom1 := box1.y + box1.height / 2
  let left2 := box2.x - box2.width / 2
  let right2 := box2.x + box2.width / 2
  let top2 := box2.y - box2.height / 2
  let bottom2 := box2.y + box2.height / 2
  !(decide (right1 < left2) || decide (left1 > right2) ||
    decide (bottom1 < top2) || decide (top1 > bottom2))

/-- X-axis overlap of two boxes (`calculateOverlapX` of rollback.ts). -/
def calculateOverlapX (box1 box2 : CollisionBox) : ℚ :=
  let left1 := box1.x - box1.width / 2
  let right1 := box1.x + box1.width / 2
  let left2 := box2.x - box2.width / 2
  let right2 := box2.x + box2.width / 2
  if right1 < left2 ∨ left1 > right2 then 0
  else min (right1 - left2) (right2 - left1)

/-- Interpretation of one command inside the `for (const c of cmds)` loops of
`step`: `move` reassigns the pending velocity, the other kinds update the
fighter record in place. -/
def applyCmd (walk : Int) : Fighter × Int → Cmd → Fighter × Int
  | (f, _vx), Cmd.move dx => (f, if dx > 0 then walk else if dx < 0 then -walk else 0)
  | (f, vx), Cmd.anim name => ({ f with anim := hashStr name }, vx)
  | (f, vx), Cmd.hitbox active => ({ f with hitboxActive := active }, vx)
  | (f, vx), Cmd.hurtbox active => ({ f with hurtboxActive := active }, vx)

/-- World-space pixel X of a fighter inside `step`:
`(x / (1 << 16)) * pxPerUnit` with `pxPerUnit = 16`. -/
def worldX (x : Int) : ℚ := (x : ℚ) / 65536 * 16

/-- Mirror a box's X offset and translate it to world space, as the
`boxes1`/`boxes2` construction in `step` does. -/
def placeBox (wx : ℚ) (facingLeft : Bool) (b : CollisionBox) : CollisionBox :=
  { x := wx + (if facingLeft then -b.x else b.x), y := b.y
  , width := b.width, height := b.height }

/-- Pushback arm of `step` (rollback.ts): when collision data exists for both
current animations, compute the maximal X overlap among the (first) hit/hurt
boxes and push the fighters apart by half of it each. -/
def pushback (coll : Int → Option CollEntry) (p1FacingLeft p2FacingLeft : Bool)
    (s : State) : State :=
  match coll s.p1.anim, coll s.p2.anim with
  | some p1Data, some p2Data =>
    let p1WorldX := worldX s.p1.x
    let p2WorldX := worldX s.p2.x
    let boxes1 :=
      (match p1Data.hitboxes.head? with
        | some b => [placeBox p1WorldX p1FacingLeft b]
        | none => []) ++
      (match p1Data.hurtboxes.head? with
        | some b => [placeBox p1WorldX p1FacingLeft b]
        | none => [])
    let boxes2 :=
      (match p2Data.hitboxes.head? with
        | some b => [placeBox p2WorldX p2FacingLeft b]
        | none => []) ++
      (match p2Data.hurtboxes.head? with
        | some b => [placeBox p2WorldX p2FacingLeft b]
        | none => [])
    let maxOverlap := boxes1.foldl
      (fun m box1 => boxes2.foldl
        (fun m' box2 => max m' (calculateOverlapX box1 box2)) m) 0
    if maxOverlap > 0 then
      let pushbackPerPlayer := maxOverlap / 2
      let pushbackFixed := fpFrom (pushbackPerPlayer / 16)
      if s.p1.x < s.p2.x then
        { s with p1.x := toInt32 (s.p1.x - pushbackFixed)
               , p2.x := toInt32 (s.p2.x + pushbackFixed) }
      else
        { s with p1.x := toInt32 (s.p1.x + pushbackFixed)
               , p2.x := toInt32 (s.p2.x - pushbackFixed) }
    else s
  | _, _ => s

/-- First hit-detection arm of `step`: P1's hitbox against P2's hurtbox;
a hit decrements P2's hp, clamped at 0. -/
def hitP1toP2 (coll : Int → Option CollEntry) (p1FacingLeft p2FacingLeft : Bool)
    (s : State) : State :=
  if s.p1.hitboxActive && s.p2.hurtboxActive then
    match coll s.p1.anim, coll s.p2.anim with
    | some p1Data, some p2Data =>
      match p1Data.hitboxes.head?, p2Data.hurtboxes.head? with
      | some p1Hitbox, some p2Hurtbox =>
        let box1 := placeBox (worldX s.p1.x) p1FacingLeft p1Hitbox
        let box2 := placeBox (worldX s.p2.x) p2FacingLeft p2Hurtbox
        if checkCollision box1 box2 then
          { s with p2.hp := max 0 (s.p2.hp - 1) }
        else s
      | _, _ => s
    | _, _ => s
  else s

/-- Second hit-detection arm of `step`: P2's hitbox against P1's hurtbox. -/
def hitP2toP1 (coll : Int → Option CollEntry) (p1FacingLeft p2FacingLeft : Bool)
    (s : State) : State :=
  if s.p2.hitboxActive && s.p1.hurtboxActive then
    match coll s.p1.anim, coll s.p2.anim with
    | some p1Data, some p2Data =>
      match p1Data.hurtboxes.head?, p2Data.hitboxes.head? with
      | some p1Hurtbox, some p2Hitbox =>
        let box1 := placeBox (worldX s.p1.x) p1FacingLeft p1Hurtbox
        let box2 := placeBox (worldX s.p2.x) p2FacingLeft p2Hitbox
        if checkCollision box1 box2 then
          { s with p1.hp := max 0 (s.p1.hp - 1) }
        else s
      | _, _ => s
    | _, _ => s
  else s

/-- Deterministic per-tick step (`step` in rollback.ts, current revision):
`walk = FP.from(0.25)`; facing is derived from the pre-move positions; P1's VM
ticks and its commands are applied, then physics, then the same for P2, then
the pushback and the two hit-detection arms, then the frame wraps at 2^16.
Note the current revision has no empty-command input fallback. -/
def step {V : Type} (tick : V → Nat → Nat → List Cmd × V)
    (coll : Int → Option CollEntry) (s : State) (in1 in2 : Nat)
    (vm1 vm2 : V) : State × V × V :=
  let walk := fpFrom (mkRat 1 4)
  let p1FacingLeft := decide (s.p1.x > s.p2.x)
  let p2FacingLeft := decide (s.p1.x < s.p2.x)
  let nextFrame := s.frame + 1
  let r1 := tick vm1 nextFrame in1
  let a1 := r1.1.foldl (applyCmd walk) (s.p1, s.p1.vx)
  let p1 := { a1.1 with vx := a1.2, x := toInt32 (a1.1.x + a1.2) }
  let r2 := tick vm2 nextFrame in2
  let a2 := r2.1.foldl (applyCmd walk) (s.p2, s.p2.vx)
  let p2 := { a2.1 with vx := a2.2, x := toInt32 (a2.1.x + a2.2) }
  let s1 := hitP2toP1 coll p1FacingLeft p2FacingLeft
    (hitP1toP2 coll p1FacingLeft p2FacingLeft
      (pushback coll p1FacingLeft p2FacingLeft { s with p1 := p1, p2 := p2 }))
  ({ s1 with frame := (s1.frame + 1) % 65536 }, r1.2, r2.2)

/-- History-ring slot of a frame: `f % this.hist.length` with 64 slots. -/
def slotOf (f : Nat) : Fin 64 := ⟨f % 64, Nat.mod_lt _ (by omega)⟩

/-- Input-ring slot of a frame: `f & 0xffff`. -/
def ringIdx (f : Nat) : Fin 65536 := ⟨f % 65536, Nat.mod_lt _ (by omega)⟩

/-- Rollback engine state (class Rollback of rollback.ts), abstracted over the
VM state type `V`. -/
structure Engine (V : Type) where
  hist : Fin 64 → Option State
  in1 : Fin 65536 → Nat
  in2 : Fin 65536 → Nat
  latest : Nat
  vm1 : V
  vm2 : V
  localPlayerNumber : Nat
  coll : Int → Option CollEntry

/-- Constructor of Rollback: seed snapshot committed at its slot, rings
zeroed (Uint16Array), both VMs produced by the factory, empty collision map. -/
def newRollback {V : Type} (seedState : State) (vmFromFactory : V)
    (localPlayerNumber : Nat) : Engine V :=
  { hist := fun i => if i = slotOf seedState.frame then some seedState else none
  , in1 := fun _ => 0
  , in2 := fun _ => 0
  , latest := seedState.frame
  , vm1 := vmFromFactory
  , vm2 := vmFromFactory
  , localPlayerNumber := localPlayerNumber
  , coll := fun _ => none }

/-- setLocalInput of Rollback: write into the ring matching the local player
number; a Uint16Array store truncates the mask modulo 2^16. -/
def setLocalInput {V : Type} (e : Engine V) (f m : Nat) : Engine V :=
  if e.localPlayerNumber = 1 then
    { e with in1 := Function.update e.in1 (ringIdx f) (m % 65536) }
  else
    { e with in2 := Function.update e.in2 (ringIdx f) (m % 65536) }

/-- setRemoteInput of Rollback: write into the ring of the other player. -/
def setRemoteInput {V : Type} (e : Engine V) (f m : Nat) : Engine V :=
  if e.localPlayerNumber = 1 then
    { e with in2 := Function.update e.in2 (ringIdx f) (m % 65536) }
  else
    { e with in1 := Function.update e.in1 (ringIdx f) (m % 65536) }

/-- Indexing a Uint16Array as a JS expression: an in-range index always yields
the stored element (never undefined), an out-of-range one yields undefined. -/
def u16get (a : Fin 65536 → Nat) (i : Nat) : Option Nat :=
  if h : i < 65536 then some (a ⟨i, h⟩) else none

/-- The local-input mask read in `simulateTo`/`rollbackFrom`:
`this.in1[next] ?? 0`. -/
def maskP1 (a : Fin 65536 → Nat) (next : Nat) : Nat :=
  (u16get a next).getD 0

/-- The remote-input mask read in `simulateTo`/`rollbackFrom`:
`this.in2[next] ?? this.in2[(next - 1) & 0xffff] ?? 0` (the nullish chain
transcribed verbatim; `(next - 1) & 0xffff` is `(next + 65535) % 65536`). -/
def maskP2 (a : Fin 65536 → Nat) (next : Nat) : Nat :=
  (u16get a next).getD ((u16get a ((next + 65535) % 65536)).getD 0)

/-- getLatest of Rollback: deep copy of the snapshot at the latest slot;
`none` models the undefined read of an unwritten slot. -/
def getLatest {V : Type} (e : Engine V) : Option State :=
  e.hist (slotOf e.latest)

/-- Loop body shared by `simulateTo` and `rollbackFrom`: advance one frame
from snapshot `s` while `s.frame < target`, committing each frame.
`commitLatest` distinguishes `simulateTo` (which also advances `this.latest`)
from `rollbackFrom` (which does not).  Fuel exhaustion models the JS loop
failing to terminate. -/
def simLoop {V : Type} (tick : V → Nat → Nat → List Cmd × V)
    (commitLatest : Bool) (target : Nat) :
    Nat → State → Engine V → Option (State × Engine V)
  | 0, s, e => if s.frame < target then none else some (s, e)
  | fuel + 1, s, e =>
    if s.frame < target then
      let next := (s.frame + 1) % 65536
      let i1 := maskP1 e.in1 next
      let i2 := maskP2 e.in2 next
      let r := step tick e.coll s i1 i2 e.vm1 e.vm2
      simLoop tick commitLatest target fuel r.1
        { e with
          hist := Function.update e.hist (slotOf r.1.frame) (some r.1)
          latest := if commitLatest then r.1.frame else e.latest
          vm1 := r.2.1
          vm2 := r.2.2 }
    else some (s, e)

/-- simulateTo of Rollback: clone the latest snapshot and advance it to
`target`, committing every intermediate frame and moving `latest`.
Dereferencing an unwritten latest slot throws in JS: `none`. -/
def simulateTo {V : Type} (tick : V → Nat → Nat → List Cmd × V)
    (e : Engine V) (target : Nat) : Option (State × Engine V) :=
  match getLatest e with
  | none => none
  | some s => simLoop tick true target (target + 1) s e

/-- rollbackFrom of Rollback: clone the snapshot at slot
`(frame - 1) & 0xffff` and replay up to the current `latest`, overwriting
each history slot but leaving `latest` itself untouched. -/
def rollbackFrom {V : Type} (tick : V → Nat → Nat → List Cmd × V)
    (e : Engine V) (frame : Nat) : Option (Engine V) :=
  let resume := (frame + 65535) % 65536
  match e.hist (slotOf resume) with
  | none => none
  | some s => (simLoop tick false e.latest (e.latest + 1) s e).map (·.2)

/-! Concrete VM instances used as test vehicles.  The real VM (vm_rhai.ts
over a WASM Rhai interpreter) keeps a persistent scope across ticks; the spec
itself notes this (\"Persistent per-VM scope is permitted; it is part of the
deterministic state\").  `parityTick` is the smallest such scope-carrying VM:
its scope is the number of ticks executed so far, and its script alternates
`move(1)` / `move(-1)` based on that scope.  `emptyTick` is a stateless VM
whose script returns no commands, the \"VM error or script returns none\"
case of the spec. -/

/-- Scope-carrying VM instance: scope counts ticks, odd/even scope flips the
emitted move direction.  Deterministic in (script, scope, frame, input). -/
def parityTick : Nat → Nat → Nat → List Cmd × Nat :=
  fun v _ _ => ([Cmd.move (if v % 2 = 0 then 1 else -1)], v + 1)

/-- Stateless VM instance whose tick returns an empty command list. -/
def emptyTick : Unit → Nat → Nat → List Cmd × Unit := fun v _ _ => ([], v)

/-- Seed state of `makeRollback` in main.ts: frame 0, fighters at -1 and +1
world units (`-1 << 16`, `1 << 16`), hp 100, anim 0.  The JS seed omits the
hitbox/hurtbox fields, so they read as falsy. -/
def mainSeed : State :=
  { frame := 0
  , p1 := { x := -65536, vx := 0, hp := 100, anim := 0
          , hitboxActive := false, hurtboxActive := false }
  , p2 := { x := 65536, vx := 0, hp := 100, anim := 0
          , hitboxActive := false, hurtboxActive := false } }

/-- Engine freshly seeded as by `makeRollback` with the scope-carrying VM. -/
def scopeBase : Engine Nat := newRollback mainSeed 0 1

/-- In-order run for the rollback-correctness scenario: the remote inputs for
frames 1..3 are stored before the frames are first simulated. -/
def c1InOrder : Option (State × Engine Nat) :=
  simulateTo parityTick
    (setRemoteInput (setRemoteInput (setRemoteInput scopeBase 1 8) 2 8) 3 8) 3

/-- Late-arrival run: frames 1..3 are first simulated under prediction, then
the remote input for frame 1 arrives and `rollbackFrom(1)` replays. -/
def c1Late : Option (Engine Nat) :=
  (simulateTo parityTick scopeBase 3).bind fun se =>
    rollbackFrom parityTick (setRemoteInput se.2 1 8) 1

/-- Forward run to frame 64 (so that `latest - 0 = 64 ≥ H`), as the engine
state for the ring-overflow scenario. -/
def c6Fwd : Option (State × Engine Nat) := simulateTo parityTick scopeBase 64

/-- Ring-overflow call: the remote input for frame 0 arrives when
`latest - 0 = 64 ≥ H = 64`, followed by `rollbackFrom(0)`. -/
def c6After : Option (Engine Nat) :=
  c6Fwd.bind fun se => rollbackFrom parityTick (setRemoteInput se.2 0 9) 0

/-- Engine whose remote ring holds mask 8 for frame 1 and nothing beyond:
the configuration in which the spec's last-known-input prediction should
produce mask 8 for frame 2. -/
def predEngine : Engine Unit := setRemoteInput (newRollback mainSeed () 1) 1 8

/-- Committed state at the 2^16 boundary: latest frame 65535. -/
def wrapState : State := { mainSeed with frame := 65535 }

/-- Engine as left by a run that committed up to frame 65535 (only the slot
relevant to the next tick is populated; the orchestrator's next target is
`(65535 + 1) & 0xffff = 0`). -/
def wrapEngine : Engine Unit :=
  { hist := fun i => if i = slotOf 65535 then some wrapState else none
  , in1 := fun _ => 0
  , in2 := fun _ => 0
  , latest := 65535
  , vm1 := ()
  , vm2 := ()
  , localPlayerNumber := 1
  , coll := fun _ => none }

/-- State with a nonzero pending velocity, for exercising the empty-command
path of `step`. -/
def coastState : State := { mainSeed with p1.vx := 9999 }

/-! Orchestrator model (main.ts): script application, game-start gating and
the 60 Hz accumulator loop.  Rendering, logging and network sends are
effects outside the simulation state and are not modelled. -/

/-- Operator-visible status line relevant to script loading, as an abstract
tag instead of the literal string. -/
inductive Status where
  | scriptApplied (name : List Nat)
  | scriptCompileError (detail : List Nat)
  | otherStatus
deriving DecidableEq

/-- The orchestrator state touched by a script apply: the rollback engine,
the current script source, the gating flag and the status line. -/
structure AppScript (V : Type) where
  rb : Engine V
  vmSrc : List Nat
  hasScriptLoaded : Bool
  status : Status

/-- ScriptPush handler of `mountAssetsDC` in main.ts (the local
`btnRunLocal` handler is the same shape): store the source, compile it into
the global VM, then call `resetRollbackWithScript()` unconditionally —
before the compile result is inspected — and finally set the status and the
gating flag from the result.  `compiles` abstracts `vmGlobal.loadSource`,
`lastErr` abstracts `vmGlobal.getLastError?.() ?? \"\"`, and `freshRb`
abstracts the engine built by `makeRollback()`. -/
def applyRemoteScriptPush {V : Type} (compiles : List Nat → Bool)
    (lastErr : List Nat) (freshRb : Engine V) (name src : List Nat)
    (_a : AppScript V) : AppScript V :=
  let ok := compiles src
  { rb := freshRb
  , vmSrc := src
  , hasScriptLoaded := ok
  , status :=
      if ok then Status.scriptApplied name
      else Status.scriptCompileError (if lastErr.isEmpty then name else lastErr) }

/-- An orchestrator state whose engine has visibly advanced (latest frame 5),
for observing what a failed script push does to it. -/
def busyApp : AppScript Unit :=
  { rb := newRollback { mainSeed with frame := 5 } () 1
  , vmSrc := []
  , hasScriptLoaded := true
  , status := Status.otherStatus }

/-- Gating flags of main.ts: `gameStarted`, `hasAssetsLoaded`,
`hasScriptLoaded`. -/
structure GameFlags where
  gameStarted : Bool
  hasAssetsLoaded : Bool
  hasScriptLoaded : Bool

/-- The Running condition of the 60 Hz loop:
`gameStarted && hasAssetsLoaded && hasScriptLoaded` (main.ts line 461). -/
def runningCond (g : GameFlags) : Bool :=
  g.gameStarted && g.hasAssetsLoaded && g.hasScriptLoaded

/-- Modelled from the spec: the GameStart opcode (0x22, no payload after the
opcode byte).  The protocol.ts revision in the snapshot predates this opcode
(its MSG table stops at ScriptAck 0x21) while main.ts already dispatches on
`MSG.GameStart` and sends `encGameStart()`; the missing constant is taken
from the spec's message table. -/
def msgGameStart : Nat := 0x22

/-- Modelled from the spec: the encoded GameStart frame, a single opcode
byte. -/
def encGameStart : List Nat := [msgGameStart]

/-- The `gameStarted` flag after the assets-channel `onmessage` dispatch of
`mountAssetsDC` processes a frame with the given opcode byte: only the
GameStart branch assigns `gameStarted = true`; every other branch leaves the
flag unchanged. -/
def assetsGameStartedAfter (msgType : Nat) (gameStarted : Bool) : Bool :=
  if msgType = msgGameStart then true else gameStarted

/-- The simulation-relevant state driven by the game loop. -/
structure SimSide (V : Type) where
  rb : Engine V
  flags : GameFlags

/-- One body execution of the 60 Hz loop (main.ts lines 465-481): read the
latest frame, sample and commit the local input for the next frame, and
simulate to it.  Viewer application, input send and the periodic state-hash
send are external effects.  `none` models the TypeError on an unwritten
latest slot. -/
def loopTickBody {V : Type} (tick : V → Nat → Nat → List Cmd × V)
    (mask : Nat) (rb : Engine V) : Option (Engine V) :=
  match getLatest rb with
  | none => none
  | some latestS =>
    let next := (latestS.frame + 1) % 65536
    (simulateTo tick (setLocalInput rb next mask) next).map (·.2)

/-- The `while (acc >= TICK)` accumulator loop of main.ts with `TICK = 1/60`:
if the gating condition fails the accumulator is zeroed and the loop exits;
otherwise one tick body runs and the accumulator decreases by `TICK`.  The
returned `Nat` counts the simulation steps executed; fuel bounds the
iteration count of the model (the real loop's variant is `acc`). -/
def loopWhile {V : Type} (tick : V → Nat → Nat → List Cmd × V) (mask : Nat) :
    Nat → ℚ → SimSide V → ℚ × SimSide V × Nat
  | 0, acc, st => (acc, st, 0)
  | fuel + 1, acc, st =>
    if (1 / 60 : ℚ) ≤ acc then
      if runningCond st.flags then
        match loopTickBody tick mask st.rb with
        | none => (acc, st, 0)
        | some rb2 =>
          let r := loopWhile tick mask fuel (acc - 1 / 60) ⟨rb2, st.flags⟩
          (r.1, r.2.1, r.2.2 + 1)
      else (0, st, 0)
    else (acc, st, 0)

/-! Wire codecs (protocol.ts).  Bytes are `Nat`s below 256; strings are
carried as their UTF-8 byte sequences (TextDecoder ∘ TextEncoder is the
identity on the well-formed strings exchanged here).  The Manifest codec is
`JSON.stringify` / `JSON.parse`; the JSON fragment those exercise (strings,
nonnegative integers, arrays, objects, no whitespace) is modelled with an
executable printer and parser below.  The printer mirrors `JSON.stringify`:
no spacing, insertion-order keys, short escapes for the JS control
characters and `\u00XX` for the remaining ones. -/

/-- Lowercase hex digit byte for a value below 16. -/
def hexDigit (d : Nat) : Nat := if d < 10 then 48 + d else 87 + d

/-- Value of one hex digit byte, accepting the digit ranges JSON.parse
accepts. -/
def hexVal (b : Nat) : Option Nat :=
  if 48 ≤ b ∧ b ≤ 57 then some (b - 48)
  else if 97 ≤ b ∧ b ≤ 102 then some (b - 87)
  else if 65 ≤ b ∧ b ≤ 70 then some (b - 55)
  else none

/-- JSON.stringify escaping of one string byte. -/
def escByte (b : Nat) : List Nat :=
  if b = 34 then [92, 34]
  else if b = 92 then [92, 92]
  else if b = 8 then [92, 98]
  else if b = 9 then [92, 116]
  else if b = 10 then [92, 110]
  else if b = 12 then [92, 102]
  else if b = 13 then [92, 114]
  else if b < 32 then [92, 117, 48, 48, hexDigit (b / 16), hexDigit (b % 16)]
  else [b]

/-- Escaped body of a JSON string literal. -/
def escBytes (s : List Nat) : List Nat :=
  s.foldr (fun b acc => escByte b ++ acc) []

/-- Quoted JSON string literal. -/
def strBytes (s : List Nat) : List Nat := 34 :: (escBytes s ++ [34])

/-- Single-character unescapes accepted after a backslash. -/
def unescChar (c : Nat) : Option Nat :=
  if c = 34 then some 34
  else if c = 92 then some 92
  else if c = 47 then some 47
  else if c = 98 then some 8
  else if c = 102 then some 12
  else if c = 110 then some 10
  else if c = 114 then some 13
  else if c = 116 then some 9
  else none

/-- Reading of a 4-hex-digit escape value. -/
def hex4 : List Nat → Option (Nat × List Nat)
  | h1 :: h2 :: h3 :: h4 :: rest =>
    match hexVal h1, hexVal h2, hexVal h3, hexVal h4 with
    | some v1, some v2, some v3, some v4 =>
      some (((v1 * 16 + v2) * 16 + v3) * 16 + v4, rest)
    | _, _, _, _ => none
  | _ => none

/-- Parse the body of a JSON string literal up to its closing quote,
returning the decoded bytes and the rest of the input.  One fuel unit is
spent per decoded character, so any fuel above the input length suffices. -/
def parseStrBody : Nat → List Nat → Option (List Nat × List Nat)
  | 0, _ => none
  | _ + 1, [] => none
  | fuel + 1, b :: rest =>
    if b = 34 then some ([], rest)
    else if b = 92 then
      match rest with
      | [] => none
      | c :: rest2 =>
        if c = 117 then
          match hex4 rest2 with
          | some p => (parseStrBody fuel p.2).map fun q => (p.1 :: q.1, q.2)
          | none => none
        else
          match unescChar c with
          | some b2 => (parseStrBody fuel rest2).map fun p => (b2 :: p.1, p.2)
          | none => none
    else (parseStrBody fuel rest).map fun p => (b :: p.1, p.2)

/-- Decimal digit bytes of a natural number, most significant first. -/
def natDigs (n : Nat) : List Nat :=
  if _h : n < 10 then [48 + n]
  else natDigs (n / 10) ++ [48 + n % 10]
termination_by n
decreasing_by exact Nat.div_lt_self (by omega) (by omega)

/-- Test for an ASCII decimal digit byte. -/
def isDigitByte (b : Nat) : Bool := decide (48 ≤ b) && decide (b ≤ 57)

/-- Split a leading run of digit bytes off the input. -/
def takeDigits : List Nat → List Nat × List Nat
  | [] => ([], [])
  | b :: rest =>
    if isDigitByte b then
      let p := takeDigits rest
      (b :: p.1, p.2)
    else ([], b :: rest)

/-- Value of a digit-byte run. -/
def digitsToNat (ds : List Nat) : Nat :=
  ds.foldl (fun acc d => acc * 10 + (d - 48)) 0

/-- Parse a nonnegative JSON number. -/
def parseNum (input : List Nat) : Option (Nat × List Nat) :=
  match takeDigits input with
  | ([], _) => none
  | (ds, rest) => some (digitsToNat ds, rest)

/-- Condition under which a number parse cannot leak into the following
input: the rest does not begin with a digit byte.  Every position at which
the printer below places a value is followed by one of `, ] } :` or the end
of input, so the condition holds throughout. -/
def notDigitStart : List Nat → Prop
  | [] => True
  | b :: _ => isDigitByte b = false

/-! JSON values in the fragment exchanged by the Manifest codec, mutually
with array-element and object-field spines for clean induction. -/
mutual
inductive Json where
  | str (s : List Nat)
  | num (n : Nat)
  | arr (elems : JArr)
  | obj (fields : JObj)
inductive JArr where
  | nil
  | cons (hd : Json) (tl : JArr)
inductive JObj where
  | nil
  | cons (key : List Nat) (val : Json) (tl : JObj)
end

/-! JSON.stringify of the fragment: no whitespace, insertion-order keys. -/
mutual
def printJson : Json → List Nat
  | Json.str s => strBytes s
  | Json.num n => natDigs n
  | Json.arr xs => 91 :: printArrItems xs
  | Json.obj fs => 123 :: printObjFields fs
def printArrItems : JArr → List Nat
  | JArr.nil => [93]
  | JArr.cons h t => printJson h ++ printArrRest t
def printArrRest : JArr → List Nat
  | JArr.nil => [93]
  | JArr.cons h t => 44 :: (printJson h ++ printArrRest t)
def printObjFields : JObj → List Nat
  | JObj.nil => [125]
  | JObj.cons k v t => strBytes k ++ (58 :: (printJson v ++ printObjRest t))
def printObjRest : JObj → List Nat
  | JObj.nil => [125]
  | JObj.cons k v t => 44 :: (strBytes k ++ (58 :: (printJson v ++ printObjRest t)))
end

/-! Structural sizes driving the parser fuel. -/
mutual
def jsize : Json → Nat
  | Json.str _ => 1
  | Json.num _ => 1
  | Json.arr xs => 1 + asize xs
  | Json.obj fs => 1 + osize fs
def asize : JArr → Nat
  | JArr.nil => 1
  | JArr.cons h t => 1 + jsize h + asize t
def osize : JObj → Nat
  | JObj.nil => 1
  | JObj.cons _ v t => 1 + jsize v + osize t
end

/-! Fueled parser for the JSON fragment (the relevant restriction of
JSON.parse: the printer never emits whitespace, booleans, null, signs or
fractions, so those productions are omitted).  Fuel exhaustion yields
`none`; any fuel at least the structural size of the printed value
suffices. -/
mutual
def parseVal : Nat → List Nat → Option (Json × List Nat)
  | 0, _ => none
  | fuel + 1, input =>
    match input with
    | [] => none
    | b :: rest =>
      if b = 34 then
        (parseStrBody (rest.length + 1) rest).map fun p => (Json.str p.1, p.2)
      else if b = 91 then
        match rest with
        | [] => none
        | c :: rest2 =>
          if c = 93 then some (Json.arr JArr.nil, rest2)
          else
            (parseVal fuel (c :: rest2)).bind fun p =>
              (parseArrRest fuel p.2).map fun q =>
                (Json.arr (JArr.cons p.1 q.1), q.2)
      else if b = 123 then
        match rest with
        | [] => none
        | c :: rest2 =>
          if c = 125 then some (Json.obj JObj.nil, rest2)
          else
            (parseField fuel (c :: rest2)).bind fun p =>
              (parseObjRest fuel p.2).map fun q =>
                (Json.obj (JObj.cons p.1.1 p.1.2 q.1), q.2)
      else (parseNum (b :: rest)).map fun p => (Json.num p.1, p.2)
termination_by fuel _input => fuel
def parseArrRest : Nat → List Nat → Option (JArr × List Nat)
  | 0, _ => none
  | fuel + 1, input =>
    match input with
    | [] => none
    | b :: rest =>
      if b = 93 then some (JArr.nil, rest)
      else if b = 44 then
        (parseVal fuel rest).bind fun p =>
          (parseArrRest fuel p.2).map fun q => (JArr.cons p.1 q.1, q.2)
      else none
termination_by fuel _input => fuel
def parseField : Nat → List Nat → Option ((List Nat × Json) × List Nat)
  | 0, _ => none
  | fuel + 1, input =>
    match input with
    | [] => none
    | b :: rest =>
      if b = 34 then
        (parseStrBody (rest.length + 1) rest).bind fun k =>
          match k.2 with
          | 58 :: rest2 => (parseVal fuel rest2).map fun v => ((k.1, v.1), v.2)
          | _ => none
      else none
termination_by fuel _input => fuel
def parseObjRest : Nat → List Nat → Option (JObj × List Nat)
  | 0, _ => none
  | fuel + 1, input =>
    match input with
    | [] => none
    | b :: rest =>
      if b = 125 then some (JObj.nil, rest)
      else if b = 44 then
        (parseField fuel rest).bind fun p =>
          (parseObjRest fuel p.2).map fun q =>
            (JObj.cons p.1.1 p.1.2 q.1, q.2)
      else none
termination_by fuel _input => fuel
end

/-- One chunk record of a Manifest. -/
structure ChunkRef where
  hash : List Nat
  size : Nat
  mime : List Nat
deriving DecidableEq

/-- Manifest of protocol.ts (`type` is spelled `mtype`, being a Lean
keyword); the optional `type` and `meta` properties are `Option`s, omitted
from the JSON when absent exactly as JSON.stringify omits undefined
properties. -/
structure Manifest where
  id : List Nat
  mtype : Option (List Nat)
  entry : List Nat
  chunks : List ChunkRef
  meta : Option (List (List Nat × List Nat))
deriving DecidableEq

/-- UTF-8 bytes of the JSON key names used by the Manifest shape. -/
def kId : List Nat := [105, 100]

/-- Key bytes of the `type` property. -/
def kType : List Nat := [116, 121, 112, 101]

/-- Key bytes of the `entry` property. -/
def kEntry : List Nat := [101, 110, 116, 114, 121]

/-- Key bytes of the `chunks` property. -/
def kChunks : List Nat := [99, 104, 117, 110, 107, 115]

/-- Key bytes of the `meta` property. -/
def kMeta : List Nat := [109, 101, 116, 97]

/-- Key bytes of the `hash` property. -/
def kHash : List Nat := [104, 97, 115, 104]

/-- Key bytes of the `size` property. -/
def kSize : List Nat := [115, 105, 122, 101]

/-- Key bytes of the `mime` property. -/
def kMime : List Nat := [109, 105, 109, 101]

/-- Array spine from a list of JSON values. -/
def jarrOfList : List Json → JArr
  | [] => JArr.nil
  | j :: js => JArr.cons j (jarrOfList js)

/-- Object spine from a list of key/value pairs. -/
def jobjOfList : List (List Nat × Json) → JObj
  | [] => JObj.nil
  | kv :: kvs => JObj.cons kv.1 kv.2 (jobjOfList kvs)

/-- JSON object for one chunk record, keys in the insertion order of the
literals in main.ts (`{hash, size, mime}`). -/
def chunkToJson (c : ChunkRef) : Json :=
  Json.obj (jobjOfList
    [(kHash, Json.str c.hash), (kSize, Json.num c.size), (kMime, Json.str c.mime)])

/-- JSON object for a Manifest, keys in the insertion order of the literals
in main.ts (`{id, type, entry, chunks, meta?}`); absent options are omitted
as JSON.stringify omits undefined properties. -/
def manifestToJson (m : Manifest) : Json :=
  Json.obj (jobjOfList
    ([(kId, Json.str m.id)] ++
     (match m.mtype with
       | some t => [(kType, Json.str t)]
       | none => []) ++
     [(kEntry, Json.str m.entry),
      (kChunks, Json.arr (jarrOfList (m.chunks.map chunkToJson)))] ++
     (match m.meta with
       | some kvs =>
         [(kMeta, Json.obj (jobjOfList (kvs.map fun p => (p.1, Json.str p.2))))]
       | none => [])))

/-- Reading of one chunk record out of the parsed JSON. -/
def chunkOfJson : Json → Option ChunkRef
  | Json.obj (JObj.cons kh (Json.str h) (JObj.cons ks (Json.num sz)
      (JObj.cons km (Json.str mi) JObj.nil))) =>
    if kh = kHash ∧ ks = kSize ∧ km = kMime then
      some { hash := h, size := sz, mime := mi }
    else none
  | _ => none

/-- Reading of the chunk array out of the parsed JSON. -/
def chunksOfJArr : JArr → Option (List ChunkRef)
  | JArr.nil => some []
  | JArr.cons h t =>
    (chunkOfJson h).bind fun c => (chunksOfJArr t).map (c :: ·)

/-- Reading of the `meta` string map out of the parsed JSON. -/
def metaOfJObj : JObj → Option (List (List Nat × List Nat))
  | JObj.nil => some []
  | JObj.cons k (Json.str v) t => (metaOfJObj t).map ((k, v) :: ·)
  | _ => none

/-- Reading of the entry/chunks/meta tail of the Manifest object. -/
def manifestRest (idv : List Nat) (tyv : Option (List Nat)) :
    JObj → Option Manifest
  | JObj.cons ke (Json.str entryv) (JObj.cons kc (Json.arr chs) t) =>
    if ke = kEntry ∧ kc = kChunks then
      match t with
      | JObj.nil =>
        (chunksOfJArr chs).map fun cl =>
          { id := idv, mtype := tyv, entry := entryv, chunks := cl, meta := none }
      | JObj.cons km (Json.obj mo) JObj.nil =>
        if km = kMeta then
          (chunksOfJArr chs).bind fun cl =>
            (metaOfJObj mo).map fun kvs =>
              { id := idv, mtype := tyv, entry := entryv, chunks := cl
              , meta := some kvs }
        else none
      | _ => none
    else none
  | _ => none

/-- Typed reading of a parsed Manifest JSON value (decManifest simply casts
the result of JSON.parse; the model instead checks the canonical shape the
encoder produces). -/
def manifestOfJson : Json → Option Manifest
  | Json.obj (JObj.cons k1 (Json.str idv) t1) =>
    if k1 = kId then
      match t1 with
      | JObj.cons k2 (Json.str tyv) t2 =>
        if k2 = kType then manifestRest idv (some tyv) t2
        else manifestRest idv none t1
      | _ => manifestRest idv none t1
    else none
  | _ => none

/-- Little-endian byte pair of `DataView.setUint16`. -/
def u16le (n : Nat) : List Nat := [n % 256, n / 256 % 256]

/-- Little-endian byte quadruple of `DataView.setUint32`. -/
def u32le (n : Nat) : List Nat :=
  [n % 256, n / 256 % 256, n / 65536 % 256, n / 16777216 % 256]

/-- Little-endian `DataView.getUint16` on two bytes. -/
def rdU16 (b0 b1 : Nat) : Nat := b0 + 256 * b1

/-- Little-endian `DataView.getUint32` on four bytes. -/
def rdU32 (b0 b1 b2 b3 : Nat) : Nat :=
  b0 + 256 * b1 + 65536 * b2 + 16777216 * b3

/-- Length-prefixed hash records of encNeedChunks: each record is the hash's
byte length as one Uint8Array store (truncating at 256) followed by the
bytes. -/
def needChunksRecords (hashes : List (List Nat)) : List Nat :=
  hashes.foldr (fun h acc => (h.length % 256 :: h) ++ acc) []

/-- Record reader loop of decNeedChunks: `count` iterations of one length
byte followed by that many bytes (`subarray` clamps, so a short tail yields
a short string, as in JS). -/
def decNeedList : Nat → List Nat → Option (List (List Nat))
  | 0, _ => some []
  | n + 1, input =>
    match input with
    | [] => none
    | l :: rest => (decNeedList n (rest.drop l)).map (rest.take l :: ·)

/-- The six message kinds of the round-trip property (protocol.ts). -/
inductive Msg where
  | manifest (m : Manifest)
  | needChunks (hashes : List (List Nat))
  | chunk (hash : List Nat) (offset : Nat) (payload : List Nat)
  | scriptPush (name : List Nat) (body : List Nat)
  | input (frame mask ack : Nat)
  | stateHash (frame : Nat) (h : Nat)
deriving DecidableEq

/-- encManifest: opcode 0x01 followed by the UTF-8 JSON text. -/
def encManifest (m : Manifest) : List Nat :=
  1 :: printJson (manifestToJson m)

/-- decManifest: JSON.parse of everything after the opcode byte (the fuel
2·length+2 dominates the structural size of any printed value, see
`jsize_le_fuel`). -/
def decManifest (bytes : List Nat) : Option Manifest :=
  let payload := bytes.drop 1
  match parseVal (2 * payload.length + 2) payload with
  | some (j, []) => manifestOfJson j
  | _ => none

/-- encNeedChunks: opcode 0x02, u16 count, then the length-prefixed hash
records. -/
def encNeedChunks (hashes : List (List Nat)) : List Nat :=
  2 :: (u16le hashes.length ++ needChunksRecords hashes)

/-- decNeedChunks: read the u16 count at offset 1 and then that many
records. -/
def decNeedChunks (bytes : List Nat) : Option (List (List Nat)) :=
  match bytes with
  | _op :: b1 :: b2 :: rest => decNeedList (rdU16 b1 b2) rest
  | _ => none

/-- encChunk: opcode 0x03, u8 hash length (Uint8Array store), hash bytes,
u32 offset, then the payload to the end. -/
def encChunk (hash : List Nat) (offset : Nat) (payload : List Nat) : List Nat :=
  3 :: (hash.length % 256) :: (hash ++ u32le offset ++ payload)

/-- decChunk: hash length at offset 1, hash bytes, u32 offset, rest is the
payload; a frame too short for the u32 read throws in JS (`none`). -/
def decChunk (bytes : List Nat) : Option (List Nat × Nat × List Nat) :=
  match bytes with
  | _op :: hl :: rest =>
    let hash := rest.take hl
    match rest.drop hl with
    | b0 :: b1 :: b2 :: b3 :: data => some (hash, rdU32 b0 b1 b2 b3, data)
    | _ => none
  | _ => none

/-- encScriptPush: opcode 0x20, u8 name length, name bytes, u32 body length,
body bytes. -/
def encScriptPush (name body : List Nat) : List Nat :=
  32 :: (name.length % 256) :: (name ++ u32le body.length ++ body)

/-- decScriptPush: name length at offset 1, name bytes, u32 body length,
then exactly that many body bytes (`subarray(6+nl, 6+nl+len)`). -/
def decScriptPush (bytes : List Nat) : Option (List Nat × List Nat) :=
  match bytes with
  | _op :: nl :: rest =>
    let name := rest.take nl
    match rest.drop nl with
    | b0 :: b1 :: b2 :: b3 :: body => some (name, body.take (rdU32 b0 b1 b2 b3))
    | _ => none
  | _ => none

/-- encInput: opcode 0x10, u16 frame, u16 mask, u16 ack (each store
truncates modulo 2^16, the source masks explicitly as well). -/
def encInput (frame mask ack : Nat) : List Nat :=
  16 :: (u16le frame ++ u16le mask ++ u16le ack)

/-- decInput: the three u16 fields after the opcode byte. -/
def decInput (bytes : List Nat) : Option (Nat × Nat × Nat) :=
  match bytes with
  | _op :: b0 :: b1 :: b2 :: b3 :: b4 :: b5 :: _ =>
    some (rdU16 b0 b1, rdU16 b2 b3, rdU16 b4 b5)
  | _ => none

/-- encStateHash: opcode 0x11, u16 frame, u32 hash. -/
def encStateHash (frame h : Nat) : List Nat :=
  17 :: (u16le frame ++ u32le h)

/-- decStateHash: u16 frame then u32 hash. -/
def decStateHash (bytes : List Nat) : Option (Nat × Nat) :=
  match bytes with
  | _op :: b0 :: b1 :: b2 :: b3 :: b4 :: b5 :: _ =>
    some (rdU16 b0 b1, rdU32 b2 b3 b4 b5)
  | _ => none

/-- Encoder dispatch over the six message kinds. -/
def encMsg : Msg → List Nat
  | Msg.manifest m => encManifest m
  | Msg.needChunks hs => encNeedChunks hs
  | Msg.chunk h off p => encChunk h off p
  | Msg.scriptPush n b => encScriptPush n b
  | Msg.input f m a => encInput f m a
  | Msg.stateHash f h => encStateHash f h

/-- Decoder dispatch on the opcode byte, as the `onmessage` handlers of
main.ts dispatch on `new Uint8Array(ev.data)[0]`. -/
def decMsg (bytes : List Nat) : Option Msg :=
  match bytes.head? with
  | some 1 => (decManifest bytes).map Msg.manifest
  | some 2 => (decNeedChunks bytes).map Msg.needChunks
  | some 3 => (decChunk bytes).map fun p => Msg.chunk p.1 p.2.1 p.2.2
  | some 32 => (decScriptPush bytes).map fun p => Msg.scriptPush p.1 p.2
  | some 16 => (decInput bytes).map fun p => Msg.input p.1 p.2.1 p.2.2
  | some 17 => (decStateHash bytes).map fun p => Msg.stateHash p.1 p.2
  | _ => none

/-- Well-formedness of a message: every field fits the wire width its
encoder stores it in. -/
def wellFormedMsg : Msg → Prop
  | Msg.manifest _ => True
  | Msg.needChunks hs => hs.length < 65536 ∧ ∀ h ∈ hs, h.length < 256
  | Msg.chunk h off _ => h.length < 256 ∧ off < 4294967296
  | Msg.scriptPush n b => n.length < 256 ∧ b.length < 4294967296
  | Msg.input f m a => f < 65536 ∧ m < 65536 ∧ a < 65536
  | Msg.stateHash f h => f < 65536 ∧ h < 4294967296

instance : DecidablePred wellFormedMsg := by
  intro m
  cases m <;> simp only [wellFormedMsg] <;> infer_instance

/-! Spec-worded restatement of the state fingerprint, for comparison with
the source-derived `hashState`. -/

/-- Spec wording of the FNV step: `h = (h XOR v) * 0x01000193`, unsigned
with 32-bit wrap. -/
def specFnvStep (h w : Nat) : Nat := Nat.xor h w * 16777619 % 4294967296

/-- Spec wording of the fingerprint: seed 0x811C9DC5 folded over a word
list. -/
def specFnvHash (ws : List Nat) : Nat := ws.foldl specFnvStep 2166136261

/-- The thirteen 32-bit words the implementation actually consumes: frame,
then per fighter x, vx, hp (masked to 32 bits), anim, and the two box flags
as 1/0 — four words more than the spec's nine-word tuple. -/
def specStateWords (s : State) : List Nat :=
  [ toUint32 (s.frame : Int)
  , toUint32 s.p1.x, toUint32 s.p1.vx, toUint32 (toInt32 s.p1.hp)
  , toUint32 (toInt32 s.p1.anim)
  , toUint32 (if s.p1.hitboxActive then 1 else 0)
  , toUint32 (if s.p1.hurtboxActive then 1 else 0)
  , toUint32 s.p2.x, toUint32 s.p2.vx, toUint32 (toInt32 s.p2.hp)
  , toUint32 (toInt32 s.p2.anim)
  , toUint32 (if s.p2.hitboxActive then 1 else 0)
  , toUint32 (if s.p2.hurtboxActive then 1 else 0) ]

/-- State agreeing with `mainSeed` on the spec's nine-word tuple. -/
def hashWitnessA : State := mainSeed

/-- State agreeing with `mainSeed` on the spec's nine-word tuple but with
P1's hitbox flag raised. -/
def hashWitnessB : State := { mainSeed with p1.hitboxActive := true }

/-- Simulation side whose gating flags are all down (fresh page state). -/
def idleSide : SimSide Unit :=
  { rb := newRollback mainSeed () 1
  , flags := { gameStarted := false, hasAssetsLoaded := false
             , hasScriptLoaded := false } }

/-- Message used to exercise the Manifest round trip: two chunks, PNG and
JSON mimes, `meta.atlas` naming the second hash (spec scenario 4). -/
def rtManifest : Manifest :=
  { id := [99, 104, 58, 97]
  , mtype := some [115, 112, 114, 105, 116, 101]
  , entry := [97, 46, 112, 110, 103]
  , chunks :=
      [ { hash := [115, 104, 97, 49], size := 512
        , mime := [105, 109, 97, 103, 101, 47, 112, 110, 103] }
      , { hash := [115, 104, 97, 50], size := 77
        , mime := [97, 112, 112, 47, 106, 115, 111, 110] } ]
  , meta := some [([97, 116, 108, 97, 115], [115, 104, 97, 50])] }

/-! Supporting lemmas: JSON string literals. -/

theorem hexVal_hexDigit (d : Nat) (hd : d < 16) : hexVal (hexDigit d) = some d := by
  interval_cases d <;> rfl

theorem parseStrBody_escBytes (s : List Nat) : ∀ (fuel : Nat) (rest : List Nat),
    s.length < fuel →
    parseStrBody fuel (escBytes s ++ (34 :: rest)) = some (s, rest) := by
  induction s with
  | nil =>
    intro fuel rest hf
    obtain ⟨m, rfl⟩ : ∃ m, fuel = m + 1 := ⟨fuel - 1, by omega⟩
    simp [escBytes, parseStrBody]
  | cons b s ih =>
    intro fuel rest hf
    obtain ⟨m, rfl⟩ : ∃ m, fuel = m + 1 := ⟨fuel - 1, by omega⟩
    have hm : s.length < m := by simp at hf; omega
    have ih := ih m rest hm
    have hstep : escBytes (b :: s) = escByte b ++ escBytes s := rfl
    rw [hstep, List.append_assoc]
    by_cases h34 : b = 34
    · subst h34; simpa [escByte, parseStrBody, unescChar] using ih
    by_cases h92 : b = 92
    · subst h92; simpa [escByte, parseStrBody, unescChar] using ih
    by_cases h8 : b = 8
    · subst h8; simpa [escByte, parseStrBody, unescChar] using ih
    by_cases h9 : b = 9
    · subst h9; simpa [escByte, parseStrBody, unescChar] using ih
    by_cases h10 : b = 10
    · subst h10; simpa [escByte, parseStrBody, unescChar] using ih
    by_cases h12 : b = 12
    · subst h12; simpa [escByte, parseStrBody, unescChar] using ih
    by_cases h13 : b = 13
    · subst h13; simpa [escByte, parseStrBody, unescChar] using ih
    by_cases hlt : b < 32
    · have h1 : hexVal (hexDigit (b / 16)) = some (b / 16) :=
        hexVal_hexDigit _ (by omega)
      have h2 : hexVal (hexDigit (b % 16)) = some (b % 16) :=
        hexVal_hexDigit _ (by omega)
      have h48 : hexVal 48 = some 0 := rfl
      have hhex : hex4 (48 :: 48 :: hexDigit (b / 16) :: hexDigit (b % 16) ::
          (escBytes s ++ 34 :: rest)) = some (b, escBytes s ++ 34 :: rest) := by
        simp only [hex4, h48, h1, h2]
        have harith : b / 16 * 16 + b % 16 = b := by omega
        simp [harith]
      simp [escByte, h34, h92, h8, h9, h10, h12, h13, hlt, parseStrBody,
        hhex, ih]
    · simp [escByte, h34, h92, h8, h9, h10, h12, h13, hlt, parseStrBody, ih]

/-! Supporting lemmas: decimal numerals. -/

theorem natDigs_digits (n : Nat) : ∀ b ∈ natDigs n, 48 ≤ b ∧ b ≤ 57 := by
  induction n using Nat.strong_induction_on with
  | _ n ih =>
    rw [natDigs]
    split
    · intro b hb
      simp only [List.mem_singleton] at hb
      omega
    · intro b hb
      rcases List.mem_append.mp hb with h | h
      · exact ih (n / 10) (Nat.div_lt_self (by omega) (by omega)) b h
      · simp only [List.mem_singleton] at h
        omega

theorem natDigs_ne_nil (n : Nat) : natDigs n ≠ [] := by
  rw [natDigs]; split <;> simp

theorem takeDigits_append (ds rest : List Nat)
    (hds : ∀ b ∈ ds, 48 ≤ b ∧ b ≤ 57) (hrest : notDigitStart rest) :
    takeDigits (ds ++ rest) = (ds, rest) := by
  induction ds with
  | nil =>
    cases rest with
    | nil => rfl
    | cons b r =>
      simp only [notDigitStart] at hrest
      simp [takeDigits, hrest]
  | cons b ds ih =>
    have hb := hds b (by simp)
    have hdig : isDigitByte b = true := by
      simp only [isDigitByte, Bool.and_eq_true, decide_eq_true_eq]; omega
    show takeDigits (b :: (ds ++ rest)) = (b :: ds, rest)
    simp only [takeDigits, hdig, if_pos]
    rw [ih (fun x hx => hds x (by simp [hx]))]

theorem digitsToNat_concat (ds : List Nat) (d : Nat) :
    digitsToNat (ds ++ [d]) = digitsToNat ds * 10 + (d - 48) := by
  simp [digitsToNat, List.foldl_append]

theorem digitsToNat_natDigs (n : Nat) : digitsToNat (natDigs n) = n := by
  induction n using Nat.strong_induction_on with
  | _ n ih =>
    rw [natDigs]
    split
    · simp [digitsToNat]
    · rw [digitsToNat_concat, ih (n / 10) (Nat.div_lt_self (by omega) (by omega))]
      omega

theorem parseNum_natDigs (n : Nat) (rest : List Nat) (h : notDigitStart rest) :
    parseNum (natDigs n ++ rest) = some (n, rest) := by
  unfold parseNum
  rw [takeDigits_append _ _ (natDigs_digits n) h]
  obtain ⟨d, ds, hd⟩ := List.exists_cons_of_ne_nil (natDigs_ne_nil n)
  rw [hd]
  have : digitsToNat (d :: ds) = n := by rw [← hd]; exact digitsToNat_natDigs n
  simp [this]

theorem natDigs_head (n : Nat) :
    ∃ d ds, natDigs n = d :: ds ∧ 48 ≤ d ∧ d ≤ 57 := by
  obtain ⟨d, ds, hd⟩ := List.exists_cons_of_ne_nil (natDigs_ne_nil n)
  refine ⟨d, ds, hd, ?_⟩
  have := natDigs_digits n d (by rw [hd]; simp)
  omega

/-! Supporting lemmas: printer heads and digit-boundary conditions. -/

theorem printJson_head (j : Json) :
    ∃ b bs, printJson j = b :: bs ∧ b ≠ 93 ∧ b ≠ 125 := by
  cases j with
  | str s => exact ⟨34, _, rfl, by omega, by omega⟩
  | num n =>
    obtain ⟨d, ds, hd, h1, h2⟩ := natDigs_head n
    exact ⟨d, ds, hd, by omega, by omega⟩
  | arr xs => exact ⟨91, _, rfl, by omega, by omega⟩
  | obj fs => exact ⟨123, _, rfl, by omega, by omega⟩

theorem nds_printArrRest (t : JArr) (rest : List Nat) :
    notDigitStart (printArrRest t ++ rest) := by
  cases t <;> simp [printArrRest, notDigitStart, isDigitByte]

theorem nds_printObjRest (fs : JObj) (rest : List Nat) :
    notDigitStart (printObjRest fs ++ rest) := by
  cases fs <;> simp [printObjRest, notDigitStart, isDigitByte]

theorem escByte_length (b : Nat) : 1 ≤ (escByte b).length := by
  unfold escByte
  repeat' split
  all_goals simp

theorem escBytes_length (s : List Nat) : s.length ≤ (escBytes s).length := by
  induction s with
  | nil => simp [escBytes]
  | cons b s ih =>
    have hstep : escBytes (b :: s) = escByte b ++ escBytes s := rfl
    rw [hstep]
    have := escByte_length b
    simp only [List.length_append, List.length_cons]
    omega

theorem jsize_pos (j : Json) : 1 ≤ jsize j := by
  cases j <;> simp only [jsize] <;> omega

theorem asize_pos (t : JArr) : 1 ≤ asize t := by
  cases t <;> simp only [asize] <;> omega

theorem osize_pos (fs : JObj) : 1 ≤ osize fs := by
  cases fs <;> simp only [osize] <;> omega

theorem parseStr_strBytes (s rest : List Nat) :
    parseStrBody ((escBytes s ++ (34 :: rest)).length + 1)
      (escBytes s ++ (34 :: rest)) = some (s, rest) := by
  apply parseStrBody_escBytes
  have := escBytes_length s
  simp only [List.length_append, List.length_cons]
  omega

/-- Round trip of the JSON fragment: for fuel at least the structural size,
parsing a printed value (followed by any non-digit-initial rest) recovers it
exactly.  Conjoined over the four parser entry points for the mutual
induction. -/
theorem parsePrint (fuel : Nat) :
    (∀ j rest, jsize j ≤ fuel → notDigitStart rest →
      parseVal fuel (printJson j ++ rest) = some (j, rest)) ∧
    (∀ t rest, asize t ≤ fuel →
      parseArrRest fuel (printArrRest t ++ rest) = some (t, rest)) ∧
    (∀ k v rest, 1 + jsize v ≤ fuel → notDigitStart rest →
      parseField fuel (strBytes k ++ (58 :: (printJson v ++ rest))) =
        some ((k, v), rest)) ∧
    (∀ fs rest, osize fs ≤ fuel →
      parseObjRest fuel (printObjRest fs ++ rest) = some (fs, rest)) := by
  induction fuel with
  | zero =>
    refine ⟨?_, ?_, ?_, ?_⟩
    · intro j _ h _; have := jsize_pos j; omega
    · intro t _ h; have := asize_pos t; omega
    · intro k v _ h _; have := jsize_pos v; omega
    · intro fs _ h; have := osize_pos fs; omega
  | succ n ih =>
    obtain ⟨ihv, iha, ihf, iho⟩ := ih
    refine ⟨?_, ?_, ?_, ?_⟩
    · intro j rest hsz hnds
      cases j with
      | str s =>
        show parseVal (n + 1) ((34 :: (escBytes s ++ [34])) ++ rest) = _
        have hassoc : (34 :: (escBytes s ++ [34])) ++ rest =
            34 :: (escBytes s ++ (34 :: rest)) := by simp
        rw [hassoc, parseVal.eq_def]
        simp
        exact parseStrBody_escBytes s _ rest (by have := escBytes_length s; omega)
      | num m =>
        obtain ⟨d, ds, hd, h48, h57⟩ := natDigs_head m
        have hnum := parseNum_natDigs m rest hnds
        show parseVal (n + 1) (natDigs m ++ rest) = _
        rw [hd] at hnum ⊢
        have h34 : ¬(d = 34) := by omega
        have h91 : ¬(d = 91) := by omega
        have h123 : ¬(d = 123) := by omega
        simp only [List.cons_append] at hnum
        rw [parseVal.eq_def]
        simp [h34, h91, h123, hnum]
      | arr xs =>
        cases xs with
        | nil =>
          show parseVal (n + 1) ((91 :: [93]) ++ rest) = _
          rw [parseVal.eq_def]
          simp
        | cons h t =>
          have hj : jsize h ≤ n := by
            simp only [jsize, asize] at hsz
            have := asize_pos t; omega
          have ha : asize t ≤ n := by
            simp only [jsize, asize] at hsz
            have := jsize_pos h; omega
          obtain ⟨b, bs, hpj, hb93, _⟩ := printJson_head h
          have hv := ihv h (printArrRest t ++ rest) hj (nds_printArrRest t rest)
          have hrt := iha t rest ha
          show parseVal (n + 1) ((91 :: (printJson h ++ printArrRest t)) ++ rest) = _
          have hassoc : (91 :: (printJson h ++ printArrRest t)) ++ rest =
              91 :: (printJson h ++ (printArrRest t ++ rest)) := by simp
          rw [hassoc, hpj] at *
          simp only [List.cons_append] at hv ⊢
          rw [parseVal.eq_def]
          simp [hb93, hv, hrt]
      | obj fs =>
        cases fs with
        | nil =>
          show parseVal (n + 1) ((123 :: [125]) ++ rest) = _
          rw [parseVal.eq_def]
          simp
        | cons k v t =>
          have hv : 1 + jsize v ≤ n := by
            simp only [jsize, osize] at hsz
            have := osize_pos t; omega
          have ht : osize t ≤ n := by
            simp only [jsize, osize] at hsz
            have := jsize_pos v; omega
          have hfld := ihf k v (printObjRest t ++ rest) hv (nds_printObjRest t rest)
          have hrt := iho t rest ht
          show parseVal (n + 1)
            ((123 :: (strBytes k ++ (58 :: (printJson v ++ printObjRest t)))) ++ rest) = _
          have hassoc :
              (123 :: (strBytes k ++ (58 :: (printJson v ++ printObjRest t)))) ++ rest =
              123 :: (strBytes k ++ (58 :: (printJson v ++ (printObjRest t ++ rest)))) := by
            simp
          rw [hassoc]
          simp only [strBytes, List.cons_append, List.append_assoc,
            List.singleton_append, List.nil_append] at hfld
          rw [parseVal.eq_def]
          simp [strBytes, hfld, hrt]
    · intro t rest hsz
      cases t with
      | nil =>
        show parseArrRest (n + 1) ([93] ++ rest) = _
        rw [parseArrRest.eq_def]
        simp
      | cons h t =>
        have hj : jsize h ≤ n := by
          simp only [asize] at hsz
          have := asize_pos t; omega
        have ha : asize t ≤ n := by
          simp only [asize] at hsz
          have := jsize_pos h; omega
        have hv := ihv h (printArrRest t ++ rest) hj (nds_printArrRest t rest)
        have hrt := iha t rest ha
        show parseArrRest (n + 1) ((44 :: (printJson h ++ printArrRest t)) ++ rest) = _
        have hassoc : (44 :: (printJson h ++ printArrRest t)) ++ rest =
            44 :: (printJson h ++ (printArrRest t ++ rest)) := by simp
        rw [hassoc, parseArrRest.eq_def]
        simp [hv, hrt]
    · intro k v rest hszv hnds
      have hv : jsize v ≤ n := by omega
      have hval := ihv v rest hv hnds
      show parseField (n + 1) ((34 :: (escBytes k ++ [34])) ++ (58 :: (printJson v ++ rest))) = _
      have hassoc : (34 :: (escBytes k ++ [34])) ++ (58 :: (printJson v ++ rest)) =
          34 :: (escBytes k ++ (34 :: (58 :: (printJson v ++ rest)))) := by simp
      rw [hassoc, parseField.eq_def]
      have hk : parseStrBody
          ((escBytes k ++ (34 :: (58 :: (printJson v ++ rest)))).length + 1)
          (escBytes k ++ (34 :: (58 :: (printJson v ++ rest)))) =
          some (k, 58 :: (printJson v ++ rest)) :=
        parseStrBody_escBytes k _ _ (by have := escBytes_length k; simp; omega)
      simp only [List.length_append, List.length_cons] at hk
      simp [hk, hval]
    · intro fs rest hsz
      cases fs with
      | nil =>
        show parseObjRest (n + 1) ([125] ++ rest) = _
        rw [parseObjRest.eq_def]
        simp
      | cons k v t =>
        have hv : 1 + jsize v ≤ n := by
          simp only [osize] at hsz
          have := osize_pos t; omega
        have ht : osize t ≤ n := by
          simp only [osize] at hsz
          have := jsize_pos v; omega
        have hfld := ihf k v (printObjRest t ++ rest) hv (nds_printObjRest t rest)
        have hrt := iho t rest ht
        show parseObjRest (n + 1)
          ((44 :: (strBytes k ++ (58 :: (printJson v ++ printObjRest t)))) ++ rest) = _
        have hassoc :
            (44 :: (strBytes k ++ (58 :: (printJson v ++ printObjRest t)))) ++ rest =
            44 :: (strBytes k ++ (58 :: (printJson v ++ (printObjRest t ++ rest)))) := by
          simp
        rw [hassoc]
        simp only [strBytes, List.cons_append, List.append_assoc,
          List.singleton_append, List.nil_append] at hfld
        rw [parseObjRest.eq_def]
        simp [strBytes, hfld, hrt]

/-! Fuel-sufficiency: the structural size of a value is dominated by twice
the length of its printed form, so `decManifest`'s fuel of `2·length + 2`
always suffices on encoder output. -/

mutual
theorem jsize_le_print : ∀ j : Json, jsize j ≤ 2 * (printJson j).length
  | Json.str s => by
    simp only [jsize, printJson, strBytes, List.length_cons, List.length_append]
    omega
  | Json.num n => by
    have := natDigs_ne_nil n
    have : 1 ≤ (natDigs n).length := by
      cases hn : natDigs n with
      | nil => exact absurd hn (natDigs_ne_nil n)
      | cons d ds => simp
    simp only [jsize, printJson]
    omega
  | Json.arr xs => by
    cases xs with
    | nil => simp [jsize, asize, printJson, printArrItems]
    | cons h t =>
      have h1 := jsize_le_print h
      have h2 := asize_le_print t
      simp only [jsize, asize, printJson, printArrItems, List.length_cons,
        List.length_append]
      omega
  | Json.obj fs => by
    cases fs with
    | nil => simp [jsize, osize, printJson, printObjFields]
    | cons k v t =>
      have h1 := jsize_le_print v
      have h2 := osize_le_print t
      simp only [jsize, osize, printJson, printObjFields, List.length_cons,
        List.length_append]
      omega
theorem asize_le_print : ∀ t : JArr, asize t ≤ 2 * (printArrRest t).length
  | JArr.nil => by simp [asize, printArrRest]
  | JArr.cons h t => by
    have h1 := jsize_le_print h
    have h2 := asize_le_print t
    simp only [asize, printArrRest, List.length_cons, List.length_append]
    omega
theorem osize_le_print : ∀ fs : JObj, osize fs ≤ 2 * (printObjRest fs).length
  | JObj.nil => by simp [osize, printObjRest]
  | JObj.cons k v t => by
    have h1 := jsize_le_print v
    have h2 := osize_le_print t
    simp only [osize, printObjRest, strBytes, List.length_cons,
      List.length_append]
    omega
end

theorem parseVal_print_top (j : Json) :
    parseVal (2 * (printJson j).length + 2) (printJson j) = some (j, []) := by
  have h := (parsePrint (2 * (printJson j).length + 2)).1 j []
    (by have := jsize_le_print j; omega) trivial
  simpa using h

/-! Manifest shape extraction lemmas. -/

theorem chunkOfJson_toJson (c : ChunkRef) :
    chunkOfJson (chunkToJson c) = some c := by
  simp [chunkToJson, jobjOfList, chunkOfJson]

theorem chunksOfJArr_ofList (cs : List ChunkRef) :
    chunksOfJArr (jarrOfList (cs.map chunkToJson)) = some cs := by
  induction cs with
  | nil => rfl
  | cons c cs ih => simp [jarrOfList, chunksOfJArr, chunkOfJson_toJson, ih]

theorem metaOfJObj_ofList (kvs : List (List Nat × List Nat)) :
    metaOfJObj (jobjOfList (kvs.map fun p => (p.1, Json.str p.2))) = some kvs := by
  induction kvs with
  | nil => rfl
  | cons kv kvs ih => simp [jobjOfList, metaOfJObj, ih]

theorem manifestOfJson_toJson (m : Manifest) :
    manifestOfJson (manifestToJson m) = some m := by
  obtain ⟨idv, ty, entryv, cs, meta⟩ := m
  cases ty <;> cases meta <;>
    simp [manifestToJson, jobjOfList, manifestOfJson, manifestRest, kId,
      kType, kEntry, kChunks, kMeta, chunksOfJArr_ofList, metaOfJObj_ofList]

/-! Binary field round trips. -/

theorem rdU16_mod (n : Nat) (h : n < 65536) :
    rdU16 (n % 256) (n / 256 % 256) = n := by
  unfold rdU16; omega

theorem rdU32_mod (n : Nat) (h : n < 4294967296) :
    rdU32 (n % 256) (n / 256 % 256) (n / 65536 % 256) (n / 16777216 % 256) = n := by
  unfold rdU32; omega

theorem decNeedList_records (hs : List (List Nat))
    (h : ∀ x ∈ hs, x.length < 256) :
    decNeedList hs.length (needChunksRecords hs) = some hs := by
  induction hs with
  | nil => rfl
  | cons x xs ih =>
    have hx : x.length % 256 = x.length := Nat.mod_eq_of_lt (h x (by simp))
    have hrec : needChunksRecords (x :: xs) =
        x.length % 256 :: (x ++ needChunksRecords xs) := by
      simp [needChunksRecords]
    simp only [List.length_cons, decNeedList, hrec, hx, List.take_left,
      List.drop_left]
    rw [ih (fun y hy => h y (by simp [hy]))]
    rfl

/-- C8: for every message kind (Manifest, NeedChunks, Chunk, ScriptPush,
Input, StateHash) and every well-formed message m of that kind (field
values within their declared wire widths: frame/mask/ack and record counts
below 2^16, hash/name byte lengths below 2^8, offsets and body lengths
below 2^32), decoding the encoding of m yields a message equal to m field
by field. -/
theorem C8_decode_encode (m : Msg) (h : wellFormedMsg m) :
    decMsg (encMsg m) = some m := by
  cases m with
  | manifest mm =>
    simp [encMsg, decMsg, encManifest, decManifest, parseVal_print_top,
      manifestOfJson_toJson]
  | needChunks hs =>
    obtain ⟨hlen, hmem⟩ := h
    have h16 := rdU16_mod hs.length hlen
    have hrec := decNeedList_records hs hmem
    simp [encMsg, decMsg, encNeedChunks, u16le, decNeedChunks, h16, hrec]
  | chunk hsh off p =>
    obtain ⟨hlen, hoff⟩ := h
    have h32 := rdU32_mod off hoff
    have hl : hsh.length % 256 = hsh.length := Nat.mod_eq_of_lt hlen
    simp [encMsg, decMsg, encChunk, decChunk, u32le, hl, h32,
      List.take_left, List.drop_left]
  | scriptPush nm body =>
    obtain ⟨hlen, hblen⟩ := h
    have h32 := rdU32_mod body.length hblen
    have hl : nm.length % 256 = nm.length := Nat.mod_eq_of_lt hlen
    simp [encMsg, decMsg, encScriptPush, decScriptPush, u32le, hl, h32,
      List.take_left, List.drop_left, List.take_length]
  | input f mk ack =>
    obtain ⟨hf, hm, ha⟩ := h
    simp [encMsg, decMsg, encInput, decInput, u16le, rdU16_mod f hf,
      rdU16_mod mk hm, rdU16_mod ack ha]
  | stateHash f hv =>
    obtain ⟨hf, hh⟩ := h
    simp [encMsg, decMsg, encStateHash, decStateHash, u16le, u32le,
      rdU16_mod f hf, rdU32_mod hv hh]

/-- Witness for C8: the round trip applied to a concrete sprite Manifest
with two chunks and an atlas meta entry, and to a concrete Input frame, the
well-formedness hypotheses discharged by decide. -/
theorem C8_decode_encode_witness :
    (wellFormedMsg (Msg.manifest rtManifest) ∧
      decMsg (encMsg (Msg.manifest rtManifest)) = some (Msg.manifest rtManifest)) ∧
    (wellFormedMsg (Msg.input 65535 260 3) ∧
      decMsg (encMsg (Msg.input 65535 260 3)) = some (Msg.input 65535 260 3)) :=
  ⟨⟨trivial, C8_decode_encode (Msg.manifest rtManifest) trivial⟩,
   ⟨by decide, C8_decode_encode (Msg.input 65535 260 3) (by decide)⟩⟩

/-! Velocity preservation through the collision arms of `step` (they update
only positions and hit points). -/

set_option maxHeartbeats 1000000 in
theorem pushback_p1vx (c : Int → Option CollEntry) (b1 b2 : Bool) (s : State) :
    (pushback c b1 b2 s).p1.vx = s.p1.vx := by
  unfold pushback
  split
  · dsimp only
    split
    · split <;> rfl
    · rfl
  · rfl

set_option maxHeartbeats 1000000 in
theorem pushback_p2vx (c : Int → Option CollEntry) (b1 b2 : Bool) (s : State) :
    (pushback c b1 b2 s).p2.vx = s.p2.vx := by
  unfold pushback
  split
  · dsimp only
    split
    · split <;> rfl
    · rfl
  · rfl

theorem hitP1toP2_p1vx (c : Int → Option CollEntry) (b1 b2 : Bool) (s : State) :
    (hitP1toP2 c b1 b2 s).p1.vx = s.p1.vx := by
  unfold hitP1toP2
  split
  · split
    · split
      · dsimp only
        split <;> rfl
      · rfl
    · rfl
  · rfl

theorem hitP1toP2_p2vx (c : Int → Option CollEntry) (b1 b2 : Bool) (s : State) :
    (hitP1toP2 c b1 b2 s).p2.vx = s.p2.vx := by
  unfold hitP1toP2
  split
  · split
    · split
      · dsimp only
        split <;> rfl
      · rfl
    · rfl
  · rfl

theorem hitP2toP1_p1vx (c : Int → Option CollEntry) (b1 b2 : Bool) (s : State) :
    (hitP2toP1 c b1 b2 s).p1.vx = s.p1.vx := by
  unfold hitP2toP1
  split
  · split
    · split
      · dsimp only
        split <;> rfl
      · rfl
    · rfl
  · rfl

theorem hitP2toP1_p2vx (c : Int → Option CollEntry) (b1 b2 : Bool) (s : State) :
    (hitP2toP1 c b1 b2 s).p2.vx = s.p2.vx := by
  unfold hitP2toP1
  split
  · split
    · split
      · dsimp only
        split <;> rfl
      · rfl
    · rfl
  · rfl

/-- C1: rollback is not replay-transparent when the VMs carry mutable scope.
With the scope-counting VM (`parityTick`), the in-order run commits
p1.x = -49152 at frame 3, while simulating frames 1..3 first and then
calling setRemoteInput(1, 8) and rollbackFrom(1) recommits p1.x = -81920 at
frame 3: the replay re-ticks VMs whose scope already advanced, and
rollbackFrom neither restores a VM snapshot nor re-initializes the VMs. -/
theorem C1_rollback_scope_divergence :
    (c1InOrder.map fun se => se.1.p1.x) = some (-49152) ∧
    (c1Late.bind fun e => (e.hist (slotOf 3)).map (·.p1.x)) = some (-81920) ∧
    (-49152 : Int) ≠ -81920 := by
  refine ⟨by decide, by decide, by decide⟩

/-- C2: the last-known-input prediction is dead code.  The nullish fallback
`in2[next] ?? in2[(next-1) & 0xffff] ?? 0` never takes its fallback arms,
because an in-range Uint16Array read is never undefined: for every ring and
in-range slot the mask used is exactly the stored value (0 when unwritten).
Concretely, with mask 8 stored for frame 1 and frame 2 unwritten, the mask
used for frame 2 is 0, not the claimed last-known mask 8. -/
theorem C2_prediction_dead :
    (∀ (a : Fin 65536 → Nat) (i : Fin 65536), maskP2 a i.val = a i) ∧
    predEngine.in2 (ringIdx 1) = 8 ∧ maskP2 predEngine.in2 2 = 0 := by
  refine ⟨?_, by decide, by decide⟩
  intro a i
  simp [maskP2, u16get, i.isLt]

/-- C3 (counterexample): two states agreeing on the spec's nine-word tuple
(frame, p1.x, p1.vx, p1.hp, p1.anim, p2.x, p2.vx, p2.hp, p2.anim) — they
differ only in p1.hitboxActive — hash differently, so hashState is not the
nine-word hash and depends on more of the state. -/
theorem C3_nine_words_counterexample :
    (hashWitnessA.frame = hashWitnessB.frame ∧
     hashWitnessA.p1.x = hashWitnessB.p1.x ∧
     hashWitnessA.p1.vx = hashWitnessB.p1.vx ∧
     hashWitnessA.p1.hp = hashWitnessB.p1.hp ∧
     hashWitnessA.p1.anim = hashWitnessB.p1.anim ∧
     hashWitnessA.p2 = hashWitnessB.p2) ∧
    hashState hashWitnessA ≠ hashState hashWitnessB := by
  refine ⟨by decide, by decide⟩

/-- C3 (amended): hashState is the 32-bit FNV-1a-style hash with seed
0x811C9DC5 and step h = (h XOR v) * 0x01000193 mod 2^32, consumed over
exactly THIRTEEN 32-bit words: frame, then per fighter x, vx, hp (masked to
32 bits), anim, hitboxActive and hurtboxActive as 1/0 — and depends on no
other part of the state. -/
theorem C3_hash_thirteen_words (s : State) :
    hashState s = specFnvHash (specStateWords s) := by
  obtain ⟨f, ⟨x1, v1, hp1, a1, hb1, hu1⟩, ⟨x2, v2, hp2, a2, hb2, hu2⟩⟩ := s
  cases hb1 <;> cases hu1 <;> cases hb2 <;> cases hu2 <;> rfl

/-- C4 (counterexample): with an empty command list and the Right bit
(0x08) set, the current step keeps P1's velocity at its previous value 9999
instead of applying the claimed direct input mapping vx = +WALK = 16384
(and with a zero mask it would likewise keep 9999 instead of 0). -/
theorem C4_fallback_counterexample :
    (step emptyTick (fun _ => none) coastState 8 0 () ()).1.p1.vx = 9999 ∧
    (9999 : Int) ≠ 16384 ∧ (9999 : Int) ≠ 0 := by
  refine ⟨by decide, by decide, by decide⟩

/-- C4 (amended): when a player's VM tick returns an empty command list,
that player's velocity for the frame retains its previous value — the
current step has no input-mapping fallback; WALK itself is
FP.from(0.25) = 16384, used when a move command does arrive. -/
theorem C4_empty_cmds_keep_velocity {V : Type}
    (tick : V → Nat → Nat → List Cmd × V) (coll : Int → Option CollEntry)
    (s : State) (i1 i2 : Nat) (v1 v2 : V) :
    ((tick v1 (s.frame + 1) i1).1 = [] →
      (step tick coll s i1 i2 v1 v2).1.p1.vx = s.p1.vx) ∧
    ((tick v2 (s.frame + 1) i2).1 = [] →
      (step tick coll s i1 i2 v1 v2).1.p2.vx = s.p2.vx) ∧
    fpFrom (mkRat 1 4) = 16384 := by
  refine ⟨?_, ?_, by decide⟩
  · intro h
    simp only [step, h, List.foldl_nil, hitP2toP1_p1vx, hitP1toP2_p1vx,
      pushback_p1vx]
  · intro h
    simp only [step, h, List.foldl_nil, hitP2toP1_p2vx, hitP1toP2_p2vx,
      pushback_p2vx]

/-- Witness for C4 (amended): the empty-command VM at the coasting state
keeps p1.vx = 9999. -/
theorem C4_empty_cmds_keep_velocity_witness :
    (step emptyTick (fun _ => none) coastState 8 0 () ()).1.p1.vx =
      coastState.p1.vx :=
  (C4_empty_cmds_keep_velocity emptyTick (fun _ => none) coastState 8 0 () ()).1 rfl

/-- C5: at the 2^16 boundary the orchestrator's next target is
(65535 + 1) & 0xffff = 0, and simulateTo(0) on the engine whose latest
committed frame is 65535 performs no simulation step at all: it returns the
frame-65535 snapshot and leaves the engine exactly as it was (the loop
guard `s.frame < target` is not wrap-aware), instead of the claimed single
step committing a frame-0 state. -/
theorem C5_wrap_stalls :
    (65535 + 1) % 65536 = 0 ∧
    simulateTo emptyTick wrapEngine ((65535 + 1) % 65536) =
      some (wrapState, wrapEngine) := by
  exact ⟨rfl, rfl⟩

/-- C6: a too-late rollback (latest - f = 64 ≥ H) is not dropped.  After 64
committed frames, setRemoteInput(0, 9) followed by rollbackFrom(0) resolves
its resume slot (65535 mod 64 = 63) to the frame-63 snapshot and replays
frame 64, re-ticking the scope-carrying VMs: the committed frame-64 state
changes (p1.vx flips from -16384 to 16384) while `latest` stays 64. -/
theorem C6_ring_overflow_replays :
    (c6Fwd.map fun se => (se.2.hist (slotOf 64)).map (·.p1.vx)) =
      some (some (-16384)) ∧
    (c6After.bind fun e => (e.hist (slotOf 64)).map (·.p1.vx)) =
      some 16384 ∧
    (c6After.map (·.latest)) = some 64 := by
  refine ⟨by decide, by decide, by decide⟩

/-- C7: a script push whose source fails to compile still replaces the
rollback engine.  Starting from an engine whose latest frame is 5, the
handler (which calls resetRollbackWithScript() before inspecting the
compile result) leaves a fresh engine seeded at frame 0; the compile error
is surfaced on the status line and the gating flag drops. -/
theorem C7_failed_load_resets_engine :
    busyApp.rb.latest = 5 ∧
    (applyRemoteScriptPush (fun _ => false) [] (newRollback mainSeed () 1)
        [108] [98] busyApp).rb.latest = 0 ∧
    (applyRemoteScriptPush (fun _ => false) [] (newRollback mainSeed () 1)
        [108] [98] busyApp).status = Status.scriptCompileError [108] ∧
    (applyRemoteScriptPush (fun _ => false) [] (newRollback mainSeed () 1)
        [108] [98] busyApp).hasScriptLoaded = false := by
  exact ⟨rfl, rfl, rfl, rfl⟩

/-- C9: simulation steps run exactly in the Running condition.  (i) A
GameStart frame (opcode 0x22, modelled from the spec) observed on the
assets channel raises gameStarted; (ii) when the three gating flags do not
all hold, the loop leaves the simulation side untouched, runs zero steps,
and zeroes the accumulator whenever a tick was due; (iii) a positive step
count implies the Running condition held; (iv) in the Running condition
with a due tick and a readable latest snapshot, at least one step runs. -/
theorem C9_running_gates_simulation :
    (∀ gs : Bool, assetsGameStartedAfter (encGameStart.headD 0) gs = true) ∧
    (∀ {V : Type} (tick : V → Nat → Nat → List Cmd × V) (mask fuel : Nat)
      (acc : ℚ) (st : SimSide V), runningCond st.flags = false →
        (loopWhile tick mask fuel acc st).2.1 = st ∧
        (loopWhile tick mask fuel acc st).2.2 = 0 ∧
        (0 < fuel → (1 / 60 : ℚ) ≤ acc →
          (loopWhile tick mask fuel acc st).1 = 0)) ∧
    (∀ {V : Type} (tick : V → Nat → Nat → List Cmd × V) (mask fuel : Nat)
      (acc : ℚ) (st : SimSide V),
        (loopWhile tick mask fuel acc st).2.2 ≠ 0 →
        runningCond st.flags = true) ∧
    (∀ {V : Type} (tick : V → Nat → Nat → List Cmd × V) (mask fuel : Nat)
      (acc : ℚ) (st : SimSide V),
        runningCond st.flags = true → (1 / 60 : ℚ) ≤ acc → 0 < fuel →
        (loopTickBody tick mask st.rb).isSome →
        (loopWhile tick mask fuel acc st).2.2 ≠ 0) := by
  refine ⟨?_, ?_, ?_, ?_⟩
  · intro gs
    rfl
  · intro V tick mask fuel acc st hrun
    have hrunf : ¬(runningCond st.flags = true) := by simp [hrun]
    cases fuel with
    | zero => exact ⟨rfl, rfl, fun h0 _ => absurd h0 (by omega)⟩
    | succ n =>
      by_cases hacc : (1 / 60 : ℚ) ≤ acc
      · simp only [loopWhile]
        rw [if_pos hacc, if_neg hrunf]
        exact ⟨rfl, rfl, fun _ _ => rfl⟩
      · simp only [loopWhile]
        rw [if_neg hacc]
        exact ⟨rfl, rfl, fun _ hacc' => absurd hacc' hacc⟩
  · intro V tick mask fuel acc st hcnt
    by_cases hrun : runningCond st.flags = true
    · exact hrun
    · exfalso
      apply hcnt
      cases fuel with
      | zero => rfl
      | succ n =>
        by_cases hacc : (1 / 60 : ℚ) ≤ acc
        · simp only [loopWhile]
          rw [if_pos hacc, if_neg hrun]
        · simp only [loopWhile]
          rw [if_neg hacc]
  · intro V tick mask fuel acc st hrun hacc hfuel hbody
    obtain ⟨n, rfl⟩ : ∃ n, fuel = n + 1 := ⟨fuel - 1, by omega⟩
    obtain ⟨rb2, hrb2⟩ := Option.isSome_iff_exists.mp hbody
    simp only [loopWhile]
    rw [if_pos hacc, if_pos hrun, hrb2]
    simp

/-- Witness for C9: on the flags-down side nothing runs and the due
accumulator resets; a received GameStart raises the flag. -/
theorem C9_running_gates_simulation_witness :
    assetsGameStartedAfter (encGameStart.headD 0) false = true ∧
    (loopWhile emptyTick 0 1 1 idleSide).2.1 = idleSide ∧
    (loopWhile emptyTick 0 1 1 idleSide).2.2 = 0 ∧
    (loopWhile emptyTick 0 1 1 idleSide).1 = 0 := by
  have h := C9_running_gates_simulation.2.1 emptyTick 0 1 (1 : ℚ) idleSide rfl
  exact ⟨C9_running_gates_simulation.1 false, h.1, h.2.1,
    h.2.2 (by omega) (by norm_num)⟩

/-- C10: for any VM transition function, when the target does not exceed
the latest committed frame (whose snapshot the history holds — the engine's
standing invariant), simulateTo performs zero simulation steps: it returns
the stored snapshot and the engine unchanged, so no VM tick runs and no
ring or history slot is written. -/
theorem C10_simulateTo_noop {V : Type} (tick : V → Nat → Nat → List Cmd × V)
    (e : Engine V) (s : State) (target : Nat)
    (hs : e.hist (slotOf e.latest) = some s) (hf : s.frame = e.latest)
    (ht : target ≤ e.latest) :
    simulateTo tick e target = some (s, e) := by
  unfold simulateTo getLatest
  rw [hs]
  have hlt : ¬(s.frame < target) := by omega
  simp [simLoop, hlt]

/-- Witness for C10 at the freshly seeded engine and target 0. -/
theorem C10_simulateTo_noop_witness :
    simulateTo parityTick scopeBase 0 = some (mainSeed, scopeBase) :=
  C10_simulateTo_noop parityTick scopeBase mainSeed 0 rfl rfl (Nat.le_refl 0)

end WebrtcFighter
